import Mathlib

/-!
Verification of the retrieval-augmented agricultural query pipeline
(backend of the SIH-25 repository).

The Python services are shallowly embedded as executable Lean functions:

* `services/vectordb.py` — `clean_text`, `create_document_id`,
  `get_existing_document_ids`, `load_and_process_jsonl`,
  `filter_new_documents`, `add_documents_batch`;
* `services/llm_service.py` — `clean_response`, `get_relevant_context`,
  `generate_response`, `_generate_fallback_response`, `_format_weather`;
* `services/translation_service.py` — `translate_from_english`;
* `services/speech_service.py` — `text_to_speech`, `map_tts_language`;
* `routes/chat_routes.py` — `process_chat_query`.

External capabilities (the generative model, the translator, the speech
engine, the file system, the vector index) are passed in as explicit
function parameters; an exception raised by a capability is modelled as
`none`.  Python strings are modelled as `String` / `List Char`, Python
floats that only ever get compared and subtracted as `ℚ`, and Python's
falsy checks (`if x:`) are translated case by case (`0`, `""`, `None`
and empty collections are falsy).
-/

/-! ## Python string primitives

`str.split()` (split on whitespace runs, dropping empties), `' '.join`,
`str.strip()`, and character classes of the regexes used by the services.
Python's `\s` (the ASCII part, which is all the pipeline produces) is
`' '`, `'\t'`, `'\n'`, `'\r'`, `'\x0b'`, `'\x0c'`. -/

def isPySpace (c : Char) : Bool :=
  c = ' ' || c = '\t' || c = '\n' || c = '\r' || c = Char.ofNat 11 || c = Char.ofNat 12

/-- Python regex `\w`: word characters (letters, digits, underscore). -/
def isWordChar (c : Char) : Bool := c.isAlphanum || c = '_'

/-- The character class of `re.sub(r'[^\w\s.,!?()-]', ' ', text)` in
`VectorDatabase.clean_text`: characters that are kept. -/
def isAllowed (c : Char) : Bool :=
  isWordChar c || isPySpace c || c = '.' || c = ',' || c = '!' || c = '?' ||
    c = '(' || c = ')' || c = '-'

/-- `re.sub(r'[^\w\s.,!?()-]', ' ', text)`: every disallowed character is
replaced by a space. -/
def replaceSpecial (l : List Char) : List Char :=
  l.map fun c => if isAllowed c then c else ' '

/-- Python `str.split()`, fuelled so that it is structural (each step
consumes at least one character, so `l.length` fuel is always enough;
see `pySplit_eq` below). -/
def pySplitF : Nat → List Char → List (List Char)
  | 0, _ => []
  | fuel + 1, l =>
    match l.dropWhile isPySpace with
    | [] => []
    | a :: t =>
      (a :: t).takeWhile (fun c => !isPySpace c) ::
        pySplitF fuel ((a :: t).dropWhile (fun c => !isPySpace c))

/-- Python `str.split()`: the maximal whitespace-free non-empty chunks. -/
def pySplit (l : List Char) : List (List Char) := pySplitF l.length l

/-- `' '.join(words)`. -/
def joinSp : List (List Char) → List Char
  | [] => []
  | [w] => w
  | w :: ws => w ++ ' ' :: joinSp ws

/-- `' '.join(text.split())`. -/
def normalizeWs (l : List Char) : List Char := joinSp (pySplit l)

/-- `re.sub(r'[.]{2,}', '.', text)` (and likewise for `!`, `?`): every
maximal run of the character `c` is shortened to a single `c`. -/
def collapseRun (c : Char) : List Char → List Char
  | [] => []
  | [a] => [a]
  | a :: b :: t =>
    if a = c ∧ b = c then collapseRun c (b :: t) else a :: collapseRun c (b :: t)

/-- Python `str.strip()`. -/
def pyStrip (l : List Char) : List Char :=
  ((l.dropWhile isPySpace).reverse.dropWhile isPySpace).reverse

/-- Python `str.strip()` on `String`. -/
def pyStripStr (s : String) : String := String.mk (pyStrip s.data)

/-- The processing chain of `clean_text` on a non-empty string: the regex
substitution, whitespace normalization, the three punctuation-run
collapses, and the final strip. -/
def cleanPipeline (l : List Char) : List Char :=
  pyStrip (collapseRun '?' (collapseRun '!' (collapseRun '.'
    (normalizeWs (replaceSpecial l)))))

/-- `VectorDatabase.clean_text` (services/vectordb.py): the guard
`if not text: return ""`, then the processing chain. -/
def clean_text (s : String) : String :=
  if s = "" then "" else String.mk (cleanPipeline s.data)

/-- Normal form of the `clean_text` chain's output, used to prove
idempotence: every character is kept by the regex class, whitespace
occurs only as single interior `' '` separators, and there are no runs
of `.`, `!` or `?`. -/
def CleanNF (l : List Char) : Prop :=
  (∀ c ∈ l, isAllowed c = true) ∧
  (∀ c ∈ l, isPySpace c = true → c = ' ') ∧
  List.Chain' (fun a b => ¬(isPySpace a = true ∧ isPySpace b = true)) l ∧
  (∀ c ∈ l.head?, isPySpace c = false) ∧
  (∀ c ∈ l.getLast?, isPySpace c = false) ∧
  List.Chain' (fun a b => ¬(a = '.' ∧ b = '.')) l ∧
  List.Chain' (fun a b => ¬(a = '!' ∧ b = '!')) l ∧
  List.Chain' (fun a b => ¬(a = '?' ∧ b = '?')) l

/-! ## MD5 (RFC 1321), the `hashlib.md5(...).hexdigest()` used by
`create_document_id`.  32-bit words are `Nat`s reduced mod `2 ^ 32`. -/

def w32 (n : Nat) : Nat := n % 4294967296

def wadd (a b : Nat) : Nat := w32 (a + b)

def wnot (a : Nat) : Nat := 4294967295 - w32 a

def rotl (x s : Nat) : Nat := w32 (x * 2 ^ s) ||| (w32 x) >>> (32 - s)

def md5K : List Nat :=
  [0xd76aa478, 0xe8c7b756, 0x242070db, 0xc1bdceee,
   0xf57c0faf, 0x4787c62a, 0xa8304613, 0xfd469501,
   0x698098d8, 0x8b44f7af, 0xffff5bb1, 0x895cd7be,
   0x6b901122, 0xfd987193, 0xa679438e, 0x49b40821,
   0xf61e2562, 0xc040b340, 0x265e5a51, 0xe9b6c7aa,
   0xd62f105d, 0x02441453, 0xd8a1e681, 0xe7d3fbc8,
   0x21e1cde6, 0xc33707d6, 0xf4d50d87, 0x455a14ed,
   0xa9e3e905, 0xfcefa3f8, 0x676f02d9, 0x8d2a4c8a,
   0xfffa3942, 0x8771f681, 0x6d9d6122, 0xfde5380c,
   0xa4beea44, 0x4bdecfa9, 0xf6bb4b60, 0xbebfbc70,
   0x289b7ec6, 0xeaa127fa, 0xd4ef3085, 0x04881d05,
   0xd9d4d039, 0xe6db99e5, 0x1fa27cf8, 0xc4ac5665,
   0xf4292244, 0x432aff97, 0xab9423a7, 0xfc93a039,
   0x655b59c3, 0x8f0ccc92, 0xffeff47d, 0x85845dd1,
   0x6fa87e4f, 0xfe2ce6e0, 0xa3014314, 0x4e0811a1,
   0xf7537e82, 0xbd3af235, 0x2ad7d2bb, 0xeb86d391]

def md5S : List Nat :=
  [7, 12, 17, 22, 7, 12, 17, 22, 7, 12, 17, 22, 7, 12, 17, 22,
   5, 9, 14, 20, 5, 9, 14, 20, 5, 9, 14, 20, 5, 9, 14, 20,
   4, 11, 16, 23, 4, 11, 16, 23, 4, 11, 16, 23, 4, 11, 16, 23,
   6, 10, 15, 21, 6, 10, 15, 21, 6, 10, 15, 21, 6, 10, 15, 21]

/-- The 8 little-endian bytes of `n mod 2 ^ 64`. -/
def le64 (n : Nat) : List Nat := (List.range 8).map fun i => n / 256 ^ i % 256

/-- MD5 padding: a `0x80` byte, zeros up to 56 mod 64, then the bit length. -/
def md5Pad (msg : List Nat) : List Nat :=
  let padLen := (56 + 64 - (msg.length + 1) % 64) % 64
  msg ++ [0x80] ++ List.replicate padLen 0 ++ le64 (8 * msg.length)

def chunks64 (l : List Nat) : List (List Nat) :=
  if h : l = [] then [] else l.take 64 :: chunks64 (l.drop 64)
termination_by l.length
decreasing_by
  have : 0 < l.length := List.length_pos.mpr h
  simp only [List.length_drop]
  omega

def le32 (bs : List Nat) : Nat :=
  match bs with
  | [a, b, c, d] => a + 256 * b + 65536 * c + 16777216 * d
  | _ => 0

/-- The `g`-th little-endian 32-bit word of a 64-byte chunk. -/
def chunkWord (chunk : List Nat) (g : Nat) : Nat := le32 ((chunk.drop (4 * g)).take 4)

def md5Step (chunk : List Nat) (st : Nat × Nat × Nat × Nat) (i : Nat) :
    Nat × Nat × Nat × Nat :=
  let (A, B, C, D) := st
  let F :=
    if i < 16 then (B &&& C) ||| (wnot B &&& D)
    else if i < 32 then (D &&& B) ||| (wnot D &&& C)
    else if i < 48 then B ^^^ C ^^^ D
    else C ^^^ (B ||| wnot D)
  let g :=
    if i < 16 then i
    else if i < 32 then (5 * i + 1) % 16
    else if i < 48 then (3 * i + 5) % 16
    else 7 * i % 16
  let F2 := wadd (wadd F A) (wadd (md5K.getD i 0) (chunkWord chunk g))
  (D, wadd B (rotl F2 (md5S.getD i 0)), B, C)

def md5Chunk (st : Nat × Nat × Nat × Nat) (chunk : List Nat) : Nat × Nat × Nat × Nat :=
  let (a0, b0, c0, d0) := st
  let (A, B, C, D) := (List.range 64).foldl (md5Step chunk) (a0, b0, c0, d0)
  (wadd a0 A, wadd b0 B, wadd c0 C, wadd d0 D)

/-- The 4 little-endian bytes of a 32-bit word. -/
def le32Bytes (n : Nat) : List Nat :=
  [n % 256, n / 256 % 256, n / 65536 % 256, n / 16777216 % 256]

def md5Digest (msg : List Nat) : List Nat :=
  let st := (chunks64 (md5Pad msg)).foldl md5Chunk
    (0x67452301, 0xefcdab89, 0x98badcfe, 0x10325476)
  le32Bytes st.1 ++ le32Bytes st.2.1 ++ le32Bytes st.2.2.1 ++ le32Bytes st.2.2.2

def hexChar (n : Nat) : Char := if n < 10 then Char.ofNat (48 + n) else Char.ofNat (87 + n)

def byteHex (b : Nat) : List Char := [hexChar (b / 16), hexChar (b % 16)]

def md5Hex (msg : List Nat) : String := String.mk ((md5Digest msg).bind byteHex)

/-- UTF-8 encoding of a code point (Python `str.encode()`). -/
def utf8Enc (n : Nat) : List Nat :=
  if n < 128 then [n]
  else if n < 2048 then [192 + n / 64, 128 + n % 64]
  else if n < 65536 then [224 + n / 4096, 128 + n / 64 % 64, 128 + n % 64]
  else [240 + n / 262144, 128 + n / 4096 % 64, 128 + n / 64 % 64, 128 + n % 64]

def strBytes (s : String) : List Nat := s.data.bind fun c => utf8Enc c.toNat

/-! ## Content-addressed identity and corpus ingestion
(services/vectordb.py). -/

/-- `VectorDatabase.create_document_id`:
`hashlib.md5(f"{input_text}|{output_text}".encode()).hexdigest()`. -/
def create_document_id (input_text output_text : String) : String :=
  md5Hex (strBytes (input_text ++ "|" ++ output_text))

structure ProcessedDoc where
  input : String
  output : String
  doc_id : String
  line_number : Nat
deriving DecidableEq, Repr

/-- The per-line body of `VectorDatabase.load_and_process_jsonl`.  A source
line is `none` when reading it failed (JSON decode error, or a missing
`input`/`output` field); such lines are logged and skipped, as are lines
whose `input` or `output` is empty after cleaning.  Line numbers count
from 1 (`enumerate(file, 1)`). -/
def processLines : Nat → List (Option (String × String)) → List ProcessedDoc
  | _, [] => []
  | n, none :: rest => processLines (n + 1) rest
  | n, some (inp, outp) :: rest =>
    let input_text := clean_text inp
    let output_text := clean_text outp
    if input_text = "" ∨ output_text = "" then processLines (n + 1) rest
    else
      { input := input_text, output := output_text,
        doc_id := create_document_id input_text output_text,
        line_number := n } :: processLines (n + 1) rest

def load_and_process_jsonl (lines : List (Option (String × String))) : List ProcessedDoc :=
  processLines 1 lines

/-- One `collection.get(limit=batch_size, offset=offset)` page of ids; the
collection is modelled by its stored id list. -/
def collectionGet (ids : List String) (limit offset : Nat) : List String :=
  (ids.drop offset).take limit

/-- The paging loop of `VectorDatabase.get_existing_document_ids`
(`batch_size = 1000`, stop on an empty page). -/
def getExistingLoop (ids : List String) (offset : Nat) : List String :=
  if h : collectionGet ids 1000 offset = [] then []
  else collectionGet ids 1000 offset ++ getExistingLoop ids (offset + 1000)
termination_by ids.length - offset
decreasing_by
  have hne : ids.drop offset ≠ [] := by
    intro hd
    simp [collectionGet, hd] at h
  have := List.length_lt_of_drop_ne_nil hne
  omega

def get_existing_document_ids (ids : List String) : List String := getExistingLoop ids 0

/-- `VectorDatabase.filter_new_documents`: keep only documents whose id is
not already in the collection; when the collection reports no ids at all,
everything is processed. -/
def filter_new_documents (ids : List String) (data : List ProcessedDoc) : List ProcessedDoc :=
  let existing := get_existing_document_ids ids
  if existing = [] then data
  else data.filter fun item => !existing.contains item.doc_id

/-- `VectorDatabase.add_documents_batch`, abstracted to its effect: the
updated id list of the collection and the number of `generate_embedding`
calls made (one per added document); with no new documents it returns
immediately. -/
def add_documents_batch (ids : List String) (data : List ProcessedDoc) : List String × Nat :=
  if data = [] then (ids, 0)
  else (ids ++ data.map (·.doc_id), data.length)

/-- The ingestion part of `setup_vector_database` once the corpus is
loaded: filter out already-present documents, then add the rest. -/
def ingestRun (ids : List String) (data : List ProcessedDoc) : List String × Nat :=
  if data = [] then (ids, 0)
  else
    let new_data := filter_new_documents ids data
    if new_data = [] then (ids, 0)
    else add_documents_batch ids new_data

/-! ## Response cleaning and generation (services/llm_service.py). -/

/-- The character class of `re.sub(r'[*#_`~\[\]{}|\\]', '', response)` in
`clean_response` (backtick and braces written by code point). -/
def isMarkupChar (c : Char) : Bool :=
  c = '*' || c = '#' || c = '_' || c = Char.ofNat 96 || c = '~' || c = '[' || c = ']' ||
    c = Char.ofNat 123 || c = Char.ofNat 125 || c = '|' || c = '\\'

def beginsWith : List Char → List Char → Bool
  | [], _ => true
  | _ :: _, [] => false
  | p :: ps, c :: cs => p = c && beginsWith ps cs

/-- Split `l` around the first occurrence of `pat`: the part strictly
before it and the part strictly after it; `none` when `pat` does not
occur. -/
def splitFirst (pat : List Char) : List Char → Option (List Char × List Char)
  | [] => if pat = [] then some ([], []) else none
  | c :: cs =>
    if beginsWith pat (c :: cs) then some ([], (c :: cs).drop pat.length)
    else
      match splitFirst pat cs with
      | some (pre, post) => some (c :: pre, post)
      | none => none

/-- `re.sub(pat + r'(.*?)' + pat, r'\1', s)`: scan left to right, and for
each (leftmost, then nearest-closing — the non-greedy `(.*?)`) pair of
`pat` delimiters drop the delimiters and keep the enclosed text.  Each
step removes two occurrences of `pat`, so `l.length` fuel suffices. -/
def subPairAux (pat : List Char) : Nat → List Char → List Char
  | 0, l => l
  | fuel + 1, l =>
    match splitFirst pat l with
    | none => l
    | some (pre, rest) =>
      match splitFirst pat rest with
      | none => l
      | some (mid, post) => pre ++ mid ++ subPairAux pat fuel post

def subPair (pat : List Char) (l : List Char) : List Char := subPairAux pat l.length l

/-- `response.endswith(('.', '!', '?'))`. -/
def endsWithPunct (l : List Char) : Bool :=
  match l.getLast? with
  | some c => c = '.' || c = '!' || c = '?'
  | none => false

/-- `AgriculturalLLMService.clean_response`: the falsy guard (which returns
a fixed non-empty notice), markup-character removal, whitespace
normalization, the three markdown pair substitutions, strip, and the
terminal-punctuation completion. -/
def clean_response (response : String) : String :=
  if response = "" then "I couldn\x27t generate a proper response. Please try again."
  else
    let s1 := response.data.filter fun c => !isMarkupChar c
    let s2 := normalizeWs s1
    let s3 := subPair ['*', '*'] s2
    let s4 := subPair ['*'] s3
    let s5 := subPair [Char.ofNat 96] s4
    let s6 := pyStrip s5
    String.mk (if s6 ≠ [] ∧ ¬endsWithPunct s6 then s6 ++ ['.'] else s6)

/-- `len(s.split())`. -/
def wordCount (s : String) : Nat := (pySplit s.data).length

/-- One formatted result of `VectorDatabase.search_similar`: the stored
question/answer pair, the reported cosine distance (`none` when the index
returned no distances) and the source line number. -/
structure SearchResult where
  input : String
  output : String
  distance : Option ℚ
  line_number : Nat
deriving DecidableEq, Repr

/-- `1 - result.get('distance', 1) if result.get('distance') else 0`:
a missing, `None` or zero distance is falsy and yields similarity `0`. -/
def similarityScore (r : SearchResult) : ℚ :=
  match r.distance with
  | some d => if d = 0 then 0 else 1 - d
  | none => 0

/-- `enumerate(results, start)`. -/
def enumFrom1 : Nat → List SearchResult → List (Nat × SearchResult)
  | _, [] => []
  | n, r :: t => (n, r) :: enumFrom1 (n + 1) t

/-- How `get_relevant_context` reached the vector index: no index attached,
the search raised, or the search returned a (possibly empty) result list. -/
inductive CtxSource where
  | noDb : CtxSource
  | exc : CtxSource
  | ok : List SearchResult → CtxSource

/-- `AgriculturalLLMService.get_relevant_context`. -/
def get_relevant_context : CtxSource → String
  | .noDb => "No additional context available."
  | .exc => "Context retrieval failed."
  | .ok results =>
    if results = [] then "No specific context found for this query."
    else
      let context_parts := (enumFrom1 1 results).filterMap fun p =>
        if similarityScore p.2 > mkRat 1 2 then
          some ("Example " ++ toString p.1 ++ ": Q: " ++ p.2.input ++ " A: " ++ p.2.output)
        else none
      if context_parts = [] then "No highly relevant context found."
      else String.intercalate "\n" (context_parts.take 3)

/-! ## Weather formatting (services/llm_service.py, `_format_weather`). -/

/-- The `weather_info` dict: the four fields `_format_weather` reads, each
present (`some`) or absent (`none`), plus a flag for any further keys
(e.g. the `error` marker the route stores on a failed weather lookup). -/
structure WeatherInfo where
  temperature : Option ℚ
  description : Option String
  humidity : Option ℚ
  wind_speed : Option ℚ
  extra : Bool

/-- `if not weather_info:` — the dict is empty. -/
def weatherEmptyDict (w : WeatherInfo) : Bool :=
  !w.extra && w.temperature.isNone && w.description.isNone &&
    w.humidity.isNone && w.wind_speed.isNone

def tempPart (t : ℚ) : String := "Temperature: " ++ toString t ++ "°C"

def condPart (d : String) : String := "Conditions: " ++ d

def humPart (h : ℚ) : String := "Humidity: " ++ toString h ++ "%"

def windPart (v : ℚ) : String := "Wind: " ++ toString v ++ " m/s"

/-- The `parts` list of `_format_weather`: each field is appended when
`weather_info.get(key)` is truthy (present and non-zero / non-empty). -/
def weatherParts (w : WeatherInfo) : List String :=
  (match w.temperature with
   | some t => if t = 0 then [] else [tempPart t]
   | none => []) ++
  (match w.description with
   | some d => if d = "" then [] else [condPart d]
   | none => []) ++
  (match w.humidity with
   | some h => if h = 0 then [] else [humPart h]
   | none => []) ++
  (match w.wind_speed with
   | some v => if v = 0 then [] else [windPart v]
   | none => [])

/-- `AgriculturalLLMService._format_weather`. -/
def _format_weather (w : WeatherInfo) : String :=
  if weatherEmptyDict w then "Weather information not available"
  else if weatherParts w = [] then "Weather information not available"
  else String.intercalate ", " (weatherParts w)

/-! ## Prompt assembly and response generation. -/

/-- The `PromptTemplate` of `AgriculturalLLMService` with its four
variables substituted (langchain renders the template text verbatim). -/
def agriculturalPrompt (query location weather context : String) : String :=
  "\nYou are an expert agricultural advisor with extensive knowledge of farming practices, crops, soil management, and weather conditions.\n\nQuery: "
  ++ query
  ++ "\nLocation: " ++ location
  ++ "\nCurrent Weather: " ++ weather
  ++ "\n\nRelevant Knowledge Context:\n" ++ context
  ++ "\n\nInstructions for your response:\n1. Provide a direct, accurate, and concise answer to the farmer\x27s specific question\n2. Use the provided context knowledge to enhance your response accuracy\n3. Consider the location\x27s climate, soil conditions, and seasonal patterns\n4. Factor in current weather conditions when relevant\n5. Keep the response practical and actionable for farmers\n6. Use simple, clear language without technical jargon\n7. Provide specific numbers, quantities, or measurements when available\n8. Do not use any special characters, symbols, or formatting markers\n9. Keep the response between 2-4 sentences for conciseness\n10. If the context doesn\x27t contain relevant information, use your general agricultural knowledge\n\nResponse:\n"

/-- The f-string `fallback_prompt` of `_generate_fallback_response`
(query and location only — no context, no weather). -/
def fallbackPrompt (query location : String) : String :=
  "\n            As an agricultural expert, provide a brief answer to: " ++ query
  ++ "\n            Location: " ++ location
  ++ "\n            Keep the response simple, practical, and under 3 sentences.\n            "

/-- `AgriculturalLLMService._generate_fallback_response`: one simplified
call to the generation capability `llm` (`none` = raised/timed out),
cleaned with `clean_response`; if the call raises, the fixed apology
string is returned. -/
def _generate_fallback_response (llm : String → Option String) (query location : String) :
    String :=
  match llm (fallbackPrompt query location) with
  | some out => clean_response out
  | none =>
    "I apologize, but I\x27m unable to provide a response right now. Please try again later or rephrase your question."

/-- `AgriculturalLLMService.generate_response`: retrieve context, format
weather, invoke the chain, clean, apply the 5-word quality gate, falling
back on an exception or on a too-short cleaned answer. -/
def generate_response (llm : String → Option String) (ctx : CtxSource)
    (query location : String) (weather_info : WeatherInfo) : String :=
  let context := get_relevant_context ctx
  let weather_str := _format_weather weather_info
  match llm (agriculturalPrompt query location weather_str context) with
  | none => _generate_fallback_response llm query location
  | some response =>
    let cleaned_response := clean_response response
    if wordCount cleaned_response < 5 then _generate_fallback_response llm query location
    else cleaned_response

/-! ## Translation out of the working language
(services/translation_service.py). -/

/-- `TranslationService.translate_from_english` — `tr` is the
`GoogleTranslator(source='en', target=...).translate` capability
(`none` = raised; a falsy `None` return is modelled as `""`, which the
code treats identically).  Returns the resulting text together with the
number of translator invocations performed. -/
def translate_from_english (tr : String → Option String)
    (text target_language_code : String) : String × Nat :=
  if target_language_code = "en" then (text, 0)
  else if pyStripStr text = "" then (text, 0)
  else
    match tr text with
    | none => (text, 1)
    | some result => (if result = "" then text else result, 1)

/-! ## Speech synthesis (services/speech_service.py). -/

def valid_gtts_languages : List String :=
  ["en", "hi", "mr", "gu", "pa", "ta", "te", "kn", "bn", "ur", "ml", "or", "as", "ne"]

def tts_mapping : List (String × String) :=
  [("en", "en"), ("hi", "hi"), ("mr", "mr"), ("gu", "gu"), ("pa", "pa"), ("ta", "ta"),
   ("te", "te"), ("kn", "kn"), ("bn", "bn"), ("ur", "ur"), ("ml", "ml"), ("ne", "ne")]

/-- `SpeechService.map_tts_language`: `mapping.get(lang_code, 'en')`. -/
def map_tts_language (lang_code : String) : String :=
  (tts_mapping.lookup lang_code).getD "en"

/-- Outcome of `gTTS(text=..., lang=...)` plus `tts.save(path)` as seen on
the file system: `none` = an exception was raised, `some none` = the file
was not created, `some (some size)` = the file exists with `size` bytes. -/
abbrev TTSOutcome := Option (Option Nat)

/-- `SpeechService.text_to_speech`: returns the absolute path of the saved
mp3, or `none` on empty text, synthesis failure, a missing file or an
empty file.  `fname` stands for the generated `tts_<uuid>.mp3` name. -/
def text_to_speech (gtts : String → String → TTSOutcome)
    (upload_folder fname text language : String) : Option String :=
  if pyStripStr text = "" then none
  else
    let lang := if valid_gtts_languages.contains language then language else "en"
    match gtts text lang with
    | none => none
    | some none => none
    | some (some size) => if size > 0 then some (upload_folder ++ "/" ++ fname) else none

/-! ## The chat query route (routes/chat_routes.py, `process_chat_query`).

The route is modelled from the point where the request JSON has been
parsed into fields.  Database reads/writes are modelled as succeeding and
the audio-URL bookkeeping is omitted: neither changes the HTTP status or
the returned answer text.  `translate_to_english` catches internally and
always returns a string, so it is modelled as a total capability. -/

inductive RouteResult where
  | ok : String → RouteResult
  | err : Nat → String → RouteResult
deriving DecidableEq, Repr

/-- The fields extracted from the request JSON. -/
structure ChatRequest where
  query : String
  location : String
  language : String
  generate_audio : Bool

/-- The external collaborators and ambient state of one request. -/
structure ChatEnv where
  userFound : Bool
  userLocation : Option String
  googleApiKey : Bool
  folderWritable : Bool
  detectedLanguage : String
  toEnglish : String → String
  llm : String → Option String
  ctx : CtxSource
  weather : WeatherInfo
  translateBack : String → Option String
  gtts : String → String → TTSOutcome
  uploadFolder : String
  fname1 : String
  fname2 : String

/-- `process_chat_query`: precondition checks, translation in, generation,
translation out, the audio-generation section, the database save and the
final payload.  The local Python variable `original_audio_file` is
modelled by an `Option (Option String)`: `none` means the name was never
assigned — it is only initialised inside the
`generate_audio and folder_writable` branch — so that reading it while
building `ai_message` raises `NameError`, which the surrounding
`try/except` turns into a 500 `Failed to save conversation` response. -/
def process_chat_query (env : ChatEnv) (req : ChatRequest) : RouteResult :=
  if ¬env.userFound then .err 404 "User not found"
  else
    let query := pyStripStr req.query
    if query = "" then .err 400 "Query cannot be empty"
    else if query.length < 3 then .err 400 "Query too short"
    else
      let location :=
        if pyStripStr req.location ≠ "" then pyStripStr req.location
        else
          match env.userLocation with
          | some ul => if ul ≠ "" then ul else "Unknown"
          | none => "Unknown"
      if location = "Unknown" then .err 400 "Location is required"
      else if ¬env.googleApiKey then .err 503 "AI service not configured"
      else
        let lang1 := if req.language = "" then "en" else pyStripStr req.language
        let input_language := if lang1 = "" ∨ lang1 = "auto" then env.detectedLanguage else lang1
        let english_query := if input_language ≠ "en" then env.toEnglish query else query
        let response := generate_response env.llm env.ctx english_query location env.weather
        if pyStripStr response = "" then .err 500 "Failed to generate response"
        else
          let tr0 :=
            if input_language ≠ "en" then
              (translate_from_english env.translateBack response input_language).1
            else response
          let translated_response :=
            if input_language ≠ "en" ∧ (tr0 = "" ∨ pyStripStr tr0 = pyStripStr response) then
              response
            else tr0
          let original_audio_file : Option (Option String) :=
            if req.generate_audio then
              if env.folderWritable then
                some (if pyStripStr response ≠ "" then
                        text_to_speech env.gtts env.uploadFolder env.fname1 response "en"
                      else none)
              else none
            else none
          match original_audio_file with
          | none => .err 500 "Failed to save conversation"
          | some _ => .ok translated_response

/-! ## Sample inputs used by witnesses and concrete evaluations -/

/-- An empty weather dict (`weather_info or {}` with nothing fetched). -/
def weatherNone : WeatherInfo :=
  { temperature := none, description := none, humidity := none, wind_speed := none,
    extra := false }

/-- A retrieval hit with distance exactly `0.0`: an exact match. -/
def zeroDistanceResult : SearchResult :=
  { input := "How much sugarcane is produced in Odisha"
    output := "About ninety thousand tonnes are produced annually"
    distance := some 0
    line_number := 7 }

/-- A request environment in which every collaborator is healthy. -/
def chatEnvOK : ChatEnv :=
  { userFound := true
    userLocation := none
    googleApiKey := true
    folderWritable := true
    detectedLanguage := "en"
    toEnglish := fun s => s
    llm := fun _ => some "Use urea and DAP fertilizer for wheat in Punjab today."
    ctx := .ok []
    weather := weatherNone
    translateBack := fun _ => some ""
    gtts := fun _ _ => some (some 100)
    uploadFolder := "/tmp/uploads"
    fname1 := "tts_1.mp3"
    fname2 := "tts_2.mp3" }

/-- A snapshot whose only present field is a temperature of `0` —
a meaningful reading (freezing point) that is falsy in Python. -/
def weatherZero : WeatherInfo :=
  { temperature := some 0, description := none, humidity := none, wind_speed := none,
    extra := false }

/-- Temperature `0` together with a present description. -/
def weatherZeroDesc : WeatherInfo :=
  { temperature := some 0, description := some "clear sky", humidity := none,
    wind_speed := none, extra := false }

/-- An ordinary snapshot: 28 °C, clear sky. -/
def weatherSample : WeatherInfo :=
  { temperature := some 28, description := some "clear sky", humidity := none,
    wind_speed := none, extra := false }

/-- A valid minimal request (non-empty query of length ≥ 3, a location)
with audio generation enabled. -/
def reqAudioOn : ChatRequest :=
  { query := "How to grow rice", location := "Pune", language := "en",
    generate_audio := true }

/-- The same valid request with `generate_audio := false`. -/
def reqAudioOff : ChatRequest :=
  { query := "How to grow rice", location := "Pune", language := "en",
    generate_audio := false }

/-- The healthy environment with an unwritable upload folder. -/
def chatEnvNoWrite : ChatEnv := { chatEnvOK with folderWritable := false }

/-! # Theorems -/

/-! ## C4: threshold enforcement in context retrieval -/

/-- **C4** (code-bug evidence).  A retrieval result with distance exactly
`0` — an exact match, similarity `1 - 0 = 1 > 0.5` — is *discarded* by
`get_relevant_context`: the falsy check `if result.get('distance')`
treats the distance `0.0` like a missing distance, assigns similarity
`0`, and the result is not forwarded as a context example.  The last
conjunct records the threshold comparison the spec prescribes for this
input. -/
theorem get_relevant_context_discards_zero_distance :
    zeroDistanceResult.distance = some 0 ∧
    similarityScore zeroDistanceResult = 0 ∧
    get_relevant_context (.ok [zeroDistanceResult]) = "No highly relevant context found." ∧
    ((1 : ℚ) - 0 > mkRat 1 2) :=
  ⟨rfl, by decide, by decide, by norm_num⟩

/-! ## C5: the 5-word quality gate -/

/-- **C5**.  Whenever the primary generation call returns an output whose
cleaned form has fewer than 5 words, `generate_response` does not return
it: it returns exactly the result of `_generate_fallback_response`, the
second simplified prompt (query and location only) followed by the same
cleaning step. -/
theorem generate_response_quality_gate (llm : String → Option String) (ctx : CtxSource)
    (query location : String) (w : WeatherInfo) (r : String)
    (h1 : llm (agriculturalPrompt query location (_format_weather w)
      (get_relevant_context ctx)) = some r)
    (h2 : wordCount (clean_response r) < 5) :
    generate_response llm ctx query location w =
      _generate_fallback_response llm query location := by
  simp [generate_response, h1, h2]

/-- Witness for C5: a primary output `"Hi"` cleans to `"Hi."` (1 word),
so the fallback path is taken. -/
theorem generate_response_quality_gate_witness :
    generate_response (fun _ => some "Hi") (.ok []) "How to grow rice" "Pune" weatherNone
      = _generate_fallback_response (fun _ => some "Hi") "How to grow rice" "Pune" :=
  generate_response_quality_gate _ _ _ _ _ _ rfl (by decide)

/-! ## C8: translation-out no-ops -/

/-- **C8**.  `translate_from_english` returns the text unchanged with zero
translator calls when the target is `"en"`; likewise for empty or
whitespace-only text with any target; and when the translator raises, the
original text is returned. -/
theorem translate_from_english_noop (tr : String → Option String) (text lang : String) :
    (translate_from_english tr text "en" = (text, 0)) ∧
    (pyStripStr text = "" → translate_from_english tr text lang = (text, 0)) ∧
    (tr text = none → (translate_from_english tr text lang).1 = text) := by
  refine ⟨rfl, ?_, ?_⟩
  · intro h
    by_cases hl : lang = "en"
    · simp [translate_from_english, hl]
    · simp [translate_from_english, hl, h]
  · intro h
    by_cases hl : lang = "en"
    · simp [translate_from_english, hl]
    · by_cases he : pyStripStr text = ""
      · simp [translate_from_english, hl, he]
      · simp [translate_from_english, hl, he, h]

/-- Witness for C8 at concrete inputs (target `"en"`; whitespace-only
text; a raising translator). -/
theorem translate_from_english_noop_witness :
    (translate_from_english (fun _ => some "some translation") "hello" "en"
      = ("hello", 0)) ∧
    (translate_from_english (fun _ => some "x") "   " "hi" = ("   ", 0)) ∧
    ((translate_from_english (fun _ => none) "hello" "hi").1 = "hello") :=
  ⟨(translate_from_english_noop (fun _ => some "some translation") "hello" "hi").1,
   (translate_from_english_noop (fun _ => some "x") "   " "hi").2.1 (by decide),
   (translate_from_english_noop (fun _ => none) "hello" "hi").2.2 rfl⟩

/-! ## C9: audio synthesis degrades, never fails -/

/-- **C9**.  `text_to_speech` returns `none` (not an error) on empty or
whitespace-only text; an unaccepted language tag makes synthesis proceed
exactly as with English; an artifact path is returned only when the
produced file exists with non-zero size; and `map_tts_language` sends
unmapped tags to `"en"`. -/
theorem text_to_speech_degrades (gtts : String → String → TTSOutcome)
    (uf fn text lang : String) :
    (pyStripStr text = "" → text_to_speech gtts uf fn text lang = none) ∧
    (valid_gtts_languages.contains lang = false →
      text_to_speech gtts uf fn text lang = text_to_speech gtts uf fn text "en") ∧
    (∀ p, text_to_speech gtts uf fn text lang = some p →
      p = uf ++ "/" ++ fn ∧
      ∃ sz, gtts text (if valid_gtts_languages.contains lang then lang else "en")
          = some (some sz) ∧ 0 < sz) ∧
    ((tts_mapping.lookup lang).isNone → map_tts_language lang = "en") := by
  refine ⟨?_, ?_, ?_, ?_⟩
  · intro h
    simp [text_to_speech, h]
  · intro h
    have h' : ¬lang ∈ valid_gtts_languages := by simpa using h
    by_cases he : pyStripStr text = ""
    · simp [text_to_speech, he]
    · simp [text_to_speech, he, h']
  · intro p h
    by_cases he : pyStripStr text = ""
    · simp [text_to_speech, he] at h
    · simp only [text_to_speech, if_neg he] at h
      cases hg : gtts text (if valid_gtts_languages.contains lang = true then lang else "en") with
      | none =>
        rw [hg] at h
        exact absurd h (by simp)
      | some o =>
        cases o with
        | none =>
          rw [hg] at h
          exact absurd h (by simp)
        | some sz =>
          rw [hg] at h
          by_cases hsz : sz > 0
          · have hp : uf ++ "/" ++ fn = p := by simpa [hsz] using h
            exact ⟨hp.symm, sz, rfl, hsz⟩
          · exact absurd h (by simp [hsz])
  · intro h
    rw [Option.isNone_iff_eq_none] at h
    simp [map_tts_language, h]

/-- Witness for C9 at concrete inputs. -/
theorem text_to_speech_degrades_witness :
    (text_to_speech (fun _ _ => some (some 5)) "up" "f.mp3" "   " "hi" = none) ∧
    (text_to_speech (fun _ _ => some (some 5)) "up" "f.mp3" "hello" "xx"
      = text_to_speech (fun _ _ => some (some 5)) "up" "f.mp3" "hello" "en") ∧
    ("up/f.mp3" = "up" ++ "/" ++ "f.mp3" ∧
      ∃ sz, (fun (_ _ : String) => some (some 5))
          "hello" (if valid_gtts_languages.contains "hi" then "hi" else "en")
          = some (some sz) ∧ 0 < sz) ∧
    (map_tts_language "xx" = "en") :=
  ⟨(text_to_speech_degrades (fun _ _ => some (some 5)) "up" "f.mp3" "   " "hi").1 (by decide),
   (text_to_speech_degrades (fun _ _ => some (some 5)) "up" "f.mp3" "hello" "xx").2.1 (by decide),
   (text_to_speech_degrades (fun _ _ => some (some 5)) "up" "f.mp3" "hello" "hi").2.2.1
     "up/f.mp3" rfl,
   (text_to_speech_degrades (fun _ _ => some (some 5)) "up" "f.mp3" "hello" "xx").2.2.2
     (by decide)⟩

set_option maxRecDepth 8000

/-! ## C1: the pipeline's external contract on valid minimal input -/

/-- **C1** (code-bug evidence).  With a valid minimal request and every
collaborator healthy the route returns the textual answer — but only when
audio generation actually runs: with `generate_audio := false`, or with
the upload folder not writable, the local variable `original_audio_file`
is never assigned, the database-save step raises `NameError` reading it,
and the route returns HTTP 500 `Failed to save conversation` instead of
the answer, contradicting the contract that only pre-pipeline checks may
reject a valid request. -/
theorem process_chat_query_unbound_audio_var :
    process_chat_query chatEnvOK reqAudioOn
      = .ok "Use urea and DAP fertilizer for wheat in Punjab today." ∧
    process_chat_query chatEnvOK reqAudioOff = .err 500 "Failed to save conversation" ∧
    process_chat_query chatEnvNoWrite reqAudioOn = .err 500 "Failed to save conversation" :=
  ⟨by decide, by decide, by decide⟩

/-! ## C6: the Response Generator's non-emptiness contract -/

/-- Counterexample to **C6** as stated.  First conjunct: when the primary
call returns the *empty* output, `generate_response` does **not** attempt
the fallback path — `clean_response` maps `""` to the fixed 9-word notice,
which passes the quality gate and is returned, even though the fallback
capability would have produced a different answer.  Second conjunct: when
the primary call raises and the fallback returns `"#"` (non-empty, but
empty after cleaning), `generate_response` returns the *empty string* to
its caller. -/
theorem generate_response_empty_counterexample :
    (generate_response
        (fun p => if p = fallbackPrompt "How to grow rice" "Pune"
          then some "Water the seedlings early each morning." else some "")
        (.ok []) "How to grow rice" "Pune" weatherNone
      = "I couldn\x27t generate a proper response. Please try again.") ∧
    (generate_response
        (fun p => if p = fallbackPrompt "How to grow rice" "Pune" then some "#" else none)
        (.ok []) "How to grow rice" "Pune" weatherNone
      = "") :=
  ⟨by decide, by decide⟩

/-- **C6** (amended).  `generate_response` is total (never propagates an
exception); when the primary call raises, the fallback path is attempted
(and when the fallback raises too, the fixed non-empty apology string is
returned); and the result is non-empty provided every fallback output
the generator may clean is non-empty after cleaning.  (As stated the
claim fails: an empty primary output bypasses the fallback via the fixed
notice, and a fallback output consisting only of stripped markup cleans
to the empty string, which is returned.) -/
theorem generate_response_nonempty_amended (llm : String → Option String) (ctx : CtxSource)
    (query location : String) (w : WeatherInfo)
    (hfb : ∀ out, llm (fallbackPrompt query location) = some out → clean_response out ≠ "") :
    generate_response llm ctx query location w ≠ "" ∧
    (llm (agriculturalPrompt query location (_format_weather w) (get_relevant_context ctx))
        = none →
      generate_response llm ctx query location w
        = _generate_fallback_response llm query location) := by
  have hfb' : _generate_fallback_response llm query location ≠ "" := by
    unfold _generate_fallback_response
    cases hg : llm (fallbackPrompt query location) with
    | none => decide
    | some out => exact hfb out hg
  constructor
  · cases hp : llm (agriculturalPrompt query location (_format_weather w)
        (get_relevant_context ctx)) with
    | none =>
      have he : generate_response llm ctx query location w
          = _generate_fallback_response llm query location := by
        simp [generate_response, hp]
      rw [he]
      exact hfb'
    | some r =>
      by_cases hq : wordCount (clean_response r) < 5
      · have he : generate_response llm ctx query location w
            = _generate_fallback_response llm query location := by
          simp [generate_response, hp, hq]
        rw [he]
        exact hfb'
      · have he : generate_response llm ctx query location w = clean_response r := by
          simp [generate_response, hp, hq]
        rw [he]
        intro hc
        rw [hc] at hq
        exact hq (by decide)
  · intro hp
    simp [generate_response, hp]

/-- Witness for the amended C6: a well-behaved generator yields a
non-empty result, and a generator whose primary call raises routes
through the fallback path. -/
theorem generate_response_nonempty_amended_witness :
    (generate_response (fun _ => some "Sow wheat after the first rains in November.")
        (.ok []) "When to sow wheat" "Ludhiana" weatherNone ≠ "") ∧
    (generate_response (fun p => if p = fallbackPrompt "When to sow wheat" "Ludhiana"
          then some "Sow in November." else none)
        (.ok []) "When to sow wheat" "Ludhiana" weatherNone
      = _generate_fallback_response
          (fun p => if p = fallbackPrompt "When to sow wheat" "Ludhiana"
            then some "Sow in November." else none)
          "When to sow wheat" "Ludhiana") :=
  ⟨(generate_response_nonempty_amended
      (fun _ => some "Sow wheat after the first rains in November.") (.ok [])
      "When to sow wheat" "Ludhiana" weatherNone
      (fun out hout => by
        simp only [Option.some.injEq] at hout
        rw [← hout]
        decide)).1,
   (generate_response_nonempty_amended
      (fun p => if p = fallbackPrompt "When to sow wheat" "Ludhiana"
        then some "Sow in November." else none)
      (.ok []) "When to sow wheat" "Ludhiana" weatherNone
      (fun out hout => by
        simp at hout
        rw [← hout]
        decide)).2 (by decide)⟩

/-! ## C7: weather formatting -/

/-- Head character of a concatenation whose left part is non-empty. -/
theorem part_head (s : String) (c : Char) (h : s.data.head? = some c) (r : String) :
    (s ++ r).data.head? = some c := by
  rw [String.data_append, List.head?_append, h]
  rfl

theorem tempPart_head (t : ℚ) : (tempPart t).data.head? = some 'T' :=
  part_head _ _ (part_head "Temperature: " 'T' rfl _) _

theorem condPart_head (d : String) : (condPart d).data.head? = some 'C' :=
  part_head "Conditions: " 'C' rfl _

theorem humPart_head (x : ℚ) : (humPart x).data.head? = some 'H' :=
  part_head _ _ (part_head "Humidity: " 'H' rfl _) _

theorem windPart_head (v : ℚ) : (windPart v).data.head? = some 'W' :=
  part_head _ _ (part_head "Wind: " 'W' rfl _) _

/-- Counterexample to **C7** as stated.  A snapshot whose temperature field
is present with value `0` renders the `Weather information not available`
marker — the temperature entry the claim requires is not included, because
`weather_info.get('temperature')` is falsy at `0`. -/
theorem format_weather_zero_counterexample :
    weatherZero.temperature = some 0 ∧
    weatherParts weatherZero = [] ∧
    _format_weather weatherZero = "Weather information not available" :=
  ⟨rfl, by decide, by decide⟩

/-- **C7** (amended).  Each of the four fields contributes its labelled
entry to the weather summary exactly when it is present *and truthy*
(non-zero number, non-empty string) — a present-but-zero value is treated
like an absent one; the four entry kinds are distinguished by the first
character of their label (`T`/`C`/`H`/`W`).  When no field contributes,
the summary is the explicit `Weather information not available` marker
(also for the empty dict), never a silent omission; otherwise it is the
comma-joined entry list. -/
theorem format_weather_truthy_amended (w : WeatherInfo) :
    (∀ t, w.temperature = some t → t ≠ 0 → tempPart t ∈ weatherParts w) ∧
    (w.temperature = none ∨ w.temperature = some 0 →
      ∀ s ∈ weatherParts w, s.data.head? ≠ some 'T') ∧
    (∀ d, w.description = some d → d ≠ "" → condPart d ∈ weatherParts w) ∧
    (w.description = none ∨ w.description = some "" →
      ∀ s ∈ weatherParts w, s.data.head? ≠ some 'C') ∧
    (∀ x, w.humidity = some x → x ≠ 0 → humPart x ∈ weatherParts w) ∧
    (w.humidity = none ∨ w.humidity = some 0 →
      ∀ s ∈ weatherParts w, s.data.head? ≠ some 'H') ∧
    (∀ v, w.wind_speed = some v → v ≠ 0 → windPart v ∈ weatherParts w) ∧
    (w.wind_speed = none ∨ w.wind_speed = some 0 →
      ∀ s ∈ weatherParts w, s.data.head? ≠ some 'W') ∧
    (weatherParts w = [] → _format_weather w = "Weather information not available") ∧
    (weatherParts w ≠ [] → _format_weather w = String.intercalate ", " (weatherParts w)) := by
  obtain ⟨tp, dopt, ho, vo, e⟩ := w
  refine ⟨?_, ?_, ?_, ?_, ?_, ?_, ?_, ?_, ?_, ?_⟩
  · intro t ht hne
    simp_all [weatherParts]
  · intro h s hs hT
    rcases dopt with _ | d <;> rcases ho with _ | x <;> rcases vo with _ | v <;>
        rcases h with h | h <;>
      simp_all [weatherParts, tempPart_head, condPart_head, humPart_head, windPart_head] <;>
      casesm* _ ∨ _, _ ∧ _ <;> subst_vars <;>
      simp_all [tempPart_head, condPart_head, humPart_head, windPart_head]
  · intro d hd hne
    simp_all [weatherParts]
  · intro h s hs hC
    rcases tp with _ | t <;> rcases ho with _ | x <;> rcases vo with _ | v <;>
        rcases h with h | h <;>
      simp_all [weatherParts, tempPart_head, condPart_head, humPart_head, windPart_head] <;>
      casesm* _ ∨ _, _ ∧ _ <;> subst_vars <;>
      simp_all [tempPart_head, condPart_head, humPart_head, windPart_head]
  · intro x hx hne
    simp_all [weatherParts]
  · intro h s hs hH
    rcases tp with _ | t <;> rcases dopt with _ | d <;> rcases vo with _ | v <;>
        rcases h with h | h <;>
      simp_all [weatherParts, tempPart_head, condPart_head, humPart_head, windPart_head] <;>
      casesm* _ ∨ _, _ ∧ _ <;> subst_vars <;>
      simp_all [tempPart_head, condPart_head, humPart_head, windPart_head]
  · intro v hv hne
    simp_all [weatherParts]
  · intro h s hs hW
    rcases tp with _ | t <;> rcases dopt with _ | d <;> rcases ho with _ | x <;>
        rcases h with h | h <;>
      simp_all [weatherParts, tempPart_head, condPart_head, humPart_head, windPart_head] <;>
      casesm* _ ∨ _, _ ∧ _ <;> subst_vars <;>
      simp_all [tempPart_head, condPart_head, humPart_head, windPart_head]
  · intro h
    simp [_format_weather, h]
  · intro h
    by_cases hE : weatherEmptyDict ⟨tp, dopt, ho, vo, e⟩ = true
    · exfalso
      apply h
      simp only [weatherEmptyDict, Bool.and_eq_true, Bool.not_eq_true',
        Option.isNone_iff_eq_none] at hE
      obtain ⟨⟨⟨⟨he, h1⟩, h2⟩, h3⟩, h4⟩ := hE
      subst h1
      subst h2
      subst h3
      subst h4
      simp [weatherParts]
    · simp [_format_weather, hE, h]

/-- Witness for the amended C7: at 28 °C the temperature entry is present
in the parts list, a zero temperature contributes no `T`-entry even when
other fields render, and a non-empty parts list is comma-joined. -/
theorem format_weather_truthy_amended_witness :
    tempPart 28 ∈ weatherParts weatherSample ∧
    (condPart "clear sky").data.head? ≠ some 'T' ∧
    _format_weather weatherSample = String.intercalate ", " (weatherParts weatherSample) :=
  ⟨((format_weather_truthy_amended weatherSample).1 28 rfl (by decide)),
   ((format_weather_truthy_amended weatherZeroDesc).2.1 (Or.inr rfl)
     (condPart "clear sky") (by decide)),
   ((format_weather_truthy_amended weatherSample).2.2.2.2.2.2.2.2.2 (by decide))⟩

/-! ## C2: deterministic, content-addressed document identity -/

/-- Every document produced by the ingestion loader carries the content
hash of its own cleaned texts as id. -/
theorem processLines_doc_id (lines : List (Option (String × String))) :
    ∀ n d, d ∈ processLines n lines → d.doc_id = create_document_id d.input d.output := by
  induction lines with
  | nil =>
    intro n d hd
    simp [processLines] at hd
  | cons hd_line rest ih =>
    intro n d hd
    cases hd_line with
    | none => exact ih (n + 1) d hd
    | some p =>
      obtain ⟨inp, outp⟩ := p
      simp only [processLines] at hd
      by_cases hemp : clean_text inp = "" ∨ clean_text outp = ""
      · rw [if_pos hemp] at hd
        exact ih (n + 1) d hd
      · rw [if_neg hemp] at hd
        rcases List.mem_cons.mp hd with hd | hd
        · rw [hd]
        · exact ih (n + 1) d hd

/-- **C2**.  Document identity is deterministic and content-addressed: any
two records of any two corpora whose cleaned (question, answer) texts
coincide receive the same id from `create_document_id`, independently of
batch, submission time or source line number; the id is exactly the MD5
hex digest of `cleaned question | cleaned answer`. -/
theorem create_document_id_content_addressed
    (lines₁ lines₂ : List (Option (String × String))) (d₁ d₂ : ProcessedDoc)
    (h₁ : d₁ ∈ load_and_process_jsonl lines₁) (h₂ : d₂ ∈ load_and_process_jsonl lines₂)
    (hq : d₁.input = d₂.input) (ha : d₁.output = d₂.output) :
    d₁.doc_id = md5Hex (strBytes (d₁.input ++ "|" ++ d₁.output)) ∧ d₁.doc_id = d₂.doc_id := by
  have e₁ := processLines_doc_id lines₁ 1 d₁ h₁
  have e₂ := processLines_doc_id lines₂ 1 d₂ h₂
  refine ⟨e₁, ?_⟩
  rw [e₁, e₂, hq, ha]

/-- Witness for C2: the same (question, answer) content, cleaned, appears
at line 1 of one corpus and (after a malformed line) at line 2 of another
with different raw spacing; both get the same id. -/
theorem create_document_id_content_addressed_witness :
    ({ input := clean_text "How to grow rice", output := clean_text "Use urea",
       doc_id := create_document_id (clean_text "How to grow rice") (clean_text "Use urea"),
       line_number := 1 } : ProcessedDoc).doc_id
      = ({ input := clean_text "How  to   grow rice", output := clean_text "Use  urea",
           doc_id := create_document_id (clean_text "How  to   grow rice")
             (clean_text "Use  urea"),
           line_number := 2 } : ProcessedDoc).doc_id :=
  (create_document_id_content_addressed
    [some ("How to grow rice", "Use urea")]
    [none, some ("How  to   grow rice", "Use  urea")]
    _ _
    (by constructor)
    (by constructor)
    (by decide) (by decide)).2

/-! ## C3: idempotent ingestion -/

/-- The paging loop of `get_existing_document_ids` returns everything from
`offset` on. -/
theorem getExistingLoop_eq_drop :
    ∀ n ids offset, List.length ids ≤ offset + n →
      getExistingLoop ids offset = ids.drop offset := by
  intro n
  induction n with
  | zero =>
    intro ids offset hlen
    rw [getExistingLoop]
    have hd : ids.drop offset = [] := List.drop_of_length_le (by omega)
    rw [dif_pos (by simp [collectionGet, hd])]
    exact hd.symm
  | succ n ih =>
    intro ids offset hlen
    rw [getExistingLoop]
    by_cases hb : collectionGet ids 1000 offset = []
    · rw [dif_pos hb]
      simp only [collectionGet, List.take_eq_nil_iff] at hb
      rcases hb with hb | hb
      · exact absurd hb (by decide)
      · exact hb.symm
    · rw [dif_neg hb]
      rw [ih ids (offset + 1000) (by omega)]
      show (ids.drop offset).take 1000 ++ ids.drop (offset + 1000) = ids.drop offset
      rw [← List.drop_drop, List.take_append_drop]

/-- `get_existing_document_ids` lists exactly the stored ids. -/
theorem get_existing_document_ids_eq (ids : List String) :
    get_existing_document_ids ids = ids := by
  unfold get_existing_document_ids
  rw [getExistingLoop_eq_drop ids.length ids 0 (by omega)]
  rfl

/-- After one ingestion run, every document of the corpus has its id in
the collection. -/
theorem ingestRun_covers (ids : List String) (data : List ProcessedDoc) :
    ∀ d ∈ data, d.doc_id ∈ (ingestRun ids data).1 := by
  intro d hd
  unfold ingestRun
  rw [if_neg (List.ne_nil_of_mem hd)]
  simp only [filter_new_documents, get_existing_document_ids_eq]
  by_cases hids : ids = []
  · rw [if_pos hids]
    rw [if_neg (List.ne_nil_of_mem hd)]
    unfold add_documents_batch
    rw [if_neg (List.ne_nil_of_mem hd)]
    exact List.mem_append_right _ (List.mem_map_of_mem _ hd)
  · rw [if_neg hids]
    by_cases hin : ids.contains d.doc_id
    · have hmem : d.doc_id ∈ ids := List.elem_iff.mp hin
      split
      · exact hmem
      · unfold add_documents_batch
        split
        · exact hmem
        · exact List.mem_append_left _ hmem
    · have hnot : d.doc_id ∉ ids := fun hm => hin (List.elem_iff.mpr hm)
      have hfil : d ∈ data.filter fun item => !ids.contains item.doc_id :=
        List.mem_filter.mpr ⟨hd, by simpa using hnot⟩
      rw [if_neg (List.ne_nil_of_mem hfil)]
      unfold add_documents_batch
      rw [if_neg (List.ne_nil_of_mem hfil)]
      exact List.mem_append_right _ (List.mem_map_of_mem _ hfil)

/-- When every corpus document is already present, the filter removes
everything. -/
theorem filter_new_documents_all_present (ids : List String) (data : List ProcessedDoc)
    (hcov : ∀ d ∈ data, d.doc_id ∈ ids) : filter_new_documents ids data = [] := by
  simp only [filter_new_documents, get_existing_document_ids_eq]
  cases hd : data with
  | nil => split <;> rfl
  | cons d rest =>
    have hids : ids ≠ [] := by
      have := hcov d (by rw [hd]; exact List.mem_cons_self d rest)
      exact List.ne_nil_of_mem this
    rw [if_neg hids, ← hd]
    rw [List.filter_eq_nil_iff]
    intro a ha
    simp [hcov a ha]

/-- **C3**.  Ingestion is idempotent: running the ingestion pipeline a
second time on the same corpus against the collection produced by the
first run filters every record out as already present, performs zero
embedding computations, and leaves the collection's id list (hence the
id set and the index size) unchanged. -/
theorem ingest_second_run_noop (ids : List String)
    (lines : List (Option (String × String))) :
    filter_new_documents (ingestRun ids (load_and_process_jsonl lines)).1
        (load_and_process_jsonl lines) = [] ∧
    ingestRun (ingestRun ids (load_and_process_jsonl lines)).1 (load_and_process_jsonl lines)
      = ((ingestRun ids (load_and_process_jsonl lines)).1, 0) := by
  set data := load_and_process_jsonl lines with hdata
  have hcov := ingestRun_covers ids data
  have hfil : filter_new_documents (ingestRun ids data).1 data = [] :=
    filter_new_documents_all_present _ _ hcov
  have main : ∀ C : List String, filter_new_documents C data = [] → ingestRun C data = (C, 0) := by
    intro C hf
    by_cases hd : data = [] <;> simp [ingestRun, hd, hf]
  exact ⟨hfil, main _ hfil⟩

/-! ## C10: idempotence of `clean_text`

First, unfolding equations for the fuelled `pySplit`. -/

/-- Each `pySplit` step strictly shrinks the remaining input. -/
theorem pySplit_step_length {l : List Char} {a : Char} {t : List Char}
    (h : l.dropWhile isPySpace = a :: t) :
    ((a :: t).dropWhile (fun c => !isPySpace c)).length < l.length := by
  have hsub : (a :: t).length ≤ l.length := (h ▸ l.dropWhile_suffix isPySpace).length_le
  have ha : isPySpace a = false := by
    have := List.head?_dropWhile_not isPySpace l
    rw [h] at this
    simpa using this
  rw [List.dropWhile_cons_of_pos (by simp [ha])]
  have ht : (t.dropWhile (fun c => !isPySpace c)).length ≤ t.length :=
    (t.dropWhile_suffix _).length_le
  simp only [List.length_cons] at hsub
  omega

/-- The fuel argument of `pySplitF` is irrelevant once it dominates the
input length. -/
theorem pySplitF_congr :
    ∀ n m (l : List Char), l.length ≤ n → l.length ≤ m → pySplitF n l = pySplitF m l := by
  intro n
  induction n with
  | zero =>
    intro m l hn _
    have : l = [] := List.eq_nil_of_length_eq_zero (by omega)
    subst this
    cases m <;> simp [pySplitF]
  | succ n ih =>
    intro m l hn hm
    cases m with
    | zero =>
      have : l = [] := List.eq_nil_of_length_eq_zero (by omega)
      subst this
      simp [pySplitF]
    | succ m =>
      cases h : l.dropWhile isPySpace with
      | nil => simp [pySplitF, h]
      | cons a t =>
        have hlt := pySplit_step_length h
        simp only [pySplitF, h]
        exact congrArg _ (ih m _ (by omega) (by omega))

theorem pySplit_eq_nil {l : List Char} (h : l.dropWhile isPySpace = []) :
    pySplit l = [] := by
  unfold pySplit
  cases hl : l.length with
  | zero => simp [pySplitF]
  | succ k => simp [pySplitF, h]

theorem pySplit_eq_cons {l : List Char} {a : Char} {t : List Char}
    (h : l.dropWhile isPySpace = a :: t) :
    pySplit l = (a :: t).takeWhile (fun c => !isPySpace c) ::
      pySplit ((a :: t).dropWhile (fun c => !isPySpace c)) := by
  have hlt := pySplit_step_length h
  unfold pySplit
  cases hl : l.length with
  | zero =>
    have : l = [] := List.eq_nil_of_length_eq_zero hl
    subst this
    simp at h
  | succ k =>
    simp only [pySplitF, h]
    exact congrArg _ (pySplitF_congr k _ _ (by omega) (by omega))

/-- `pySplit` only looks at the input through `dropWhile isPySpace`. -/
theorem pySplit_congr {l₁ l₂ : List Char}
    (h : l₁.dropWhile isPySpace = l₂.dropWhile isPySpace) : pySplit l₁ = pySplit l₂ := by
  cases hd : l₁.dropWhile isPySpace with
  | nil => rw [pySplit_eq_nil hd, pySplit_eq_nil (h ▸ hd)]
  | cons a t =>
    have hd₂ : l₂.dropWhile isPySpace = a :: t := by rw [← h, hd]
    rw [pySplit_eq_cons hd, pySplit_eq_cons hd₂]

/-- The chunks produced by `pySplit` are non-empty, whitespace-free, and
drawn from the input. -/
theorem pySplit_sound :
    ∀ n (l : List Char), l.length ≤ n → ∀ w ∈ pySplit l,
      w ≠ [] ∧ (∀ c ∈ w, isPySpace c = false) ∧ (∀ c ∈ w, c ∈ l) := by
  intro n
  induction n with
  | zero =>
    intro l hn w hw
    have : l = [] := List.eq_nil_of_length_eq_zero (by omega)
    subst this
    rw [pySplit_eq_nil (by simp)] at hw
    simp at hw
  | succ n ih =>
    intro l hn w hw
    cases hd : l.dropWhile isPySpace with
    | nil =>
      rw [pySplit_eq_nil hd] at hw
      simp at hw
    | cons a t =>
      have ha : isPySpace a = false := by
        have := List.head?_dropWhile_not isPySpace l
        rw [hd] at this
        simpa using this
      have hsub : a :: t ⊆ l := (hd ▸ l.dropWhile_suffix isPySpace).subset
      rw [pySplit_eq_cons hd] at hw
      rcases List.mem_cons.mp hw with hw | hw
      · subst hw
        refine ⟨?_, ?_, ?_⟩
        · simp [List.takeWhile_cons, ha]
        · intro c hc
          have := List.mem_takeWhile_imp hc
          simpa using this
        · intro c hc
          exact hsub (List.takeWhile_sublist _ |>.subset hc)
      · have hlt := pySplit_step_length hd
        have := ih _ (by omega) w hw
        refine ⟨this.1, this.2.1, ?_⟩
        intro c hc
        exact hsub (List.dropWhile_sublist _ |>.subset (this.2.2 c hc))

/-- `joinSp` on two or more chunks. -/
theorem joinSp_cons_cons (w w' : List Char) (ws : List (List Char)) :
    joinSp (w :: w' :: ws) = w ++ ' ' :: joinSp (w' :: ws) := rfl

theorem joinSp_ne_nil (w : List Char) (ws : List (List Char)) (hw : w ≠ []) :
    joinSp (w :: ws) ≠ [] := by
  cases ws with
  | nil => simpa [joinSp] using hw
  | cons w' ws' =>
    rw [joinSp_cons_cons]
    cases w with
    | nil => exact absurd rfl hw
    | cons c t => simp

/-- Every character of `' '.join(ws)` is a chunk character or the
separator. -/
theorem mem_joinSp :
    ∀ ws (c : Char), c ∈ joinSp ws → (∃ w ∈ ws, c ∈ w) ∨ c = ' ' := by
  intro ws
  induction ws with
  | nil =>
    intro c hc
    simp [joinSp] at hc
  | cons w ws' ih =>
    intro c hc
    cases ws' with
    | nil =>
      simp only [joinSp] at hc
      exact Or.inl ⟨w, by simp, hc⟩
    | cons w' ws'' =>
      rw [joinSp_cons_cons] at hc
      rcases List.mem_append.mp hc with hc | hc
      · exact Or.inl ⟨w, by simp, hc⟩
      · rcases List.mem_cons.mp hc with hc | hc
        · exact Or.inr hc
        · rcases ih c hc with ⟨u, hu, hcu⟩ | hc
          · exact Or.inl ⟨u, by simp [hu], hcu⟩
          · exact Or.inr hc

theorem joinSp_head (w : List Char) (ws : List (List Char)) (hw : w ≠ []) :
    (joinSp (w :: ws)).head? = w.head? := by
  cases ws with
  | nil => rfl
  | cons w' ws' =>
    rw [joinSp_cons_cons]
    cases w with
    | nil => exact absurd rfl hw
    | cons c t => rfl

/-- The last character of the join of non-empty whitespace-free chunks is
not whitespace. -/
theorem joinSp_last_not_ws :
    ∀ ws, (∀ u ∈ ws, u ≠ [] ∧ ∀ c ∈ u, isPySpace c = false) →
      ∀ c ∈ (joinSp ws).getLast?, isPySpace c = false := by
  intro ws
  induction ws with
  | nil =>
    intro _ c hc
    simp [joinSp] at hc
  | cons w ws' ih =>
    intro hws c hc
    cases ws' with
    | nil =>
      simp only [joinSp] at hc
      exact (hws w (by simp)).2 c (List.mem_of_getLast?_eq_some (by simpa using hc))
    | cons w' ws'' =>
      rw [joinSp_cons_cons] at hc
      have hne : joinSp (w' :: ws'') ≠ [] := joinSp_ne_nil w' ws'' (hws w' (by simp)).1
      rw [List.getLast?_append_of_ne_nil _ (by simp)] at hc
      have hstep : (' ' :: joinSp (w' :: ws'')).getLast? = (joinSp (w' :: ws'')).getLast? := by
        have hc' : ' ' :: joinSp (w' :: ws'') = [' '] ++ joinSp (w' :: ws'') := rfl
        rw [hc', List.getLast?_append_of_ne_nil _ hne]
      rw [hstep] at hc
      exact ih (fun u hu => hws u (by simp [hu])) c hc

/-- A whitespace-free chunk trivially has no adjacent whitespace pair. -/
theorem chain'_no_two_ws_of_word (w : List Char) (hw : ∀ c ∈ w, isPySpace c = false) :
    w.Chain' (fun a b => ¬(isPySpace a = true ∧ isPySpace b = true)) := by
  induction w with
  | nil => simp
  | cons c t ih =>
    rw [List.chain'_cons']
    constructor
    · intro y _ hcontra
      exact absurd hcontra.1 (by simp [hw c (List.mem_cons_self c t)])
    · exact ih fun d hd => hw d (by simp [hd])

/-- The join of non-empty whitespace-free chunks has no two adjacent
whitespace characters. -/
theorem joinSp_chain_no_two_ws :
    ∀ ws, (∀ u ∈ ws, u ≠ [] ∧ ∀ c ∈ u, isPySpace c = false) →
      (joinSp ws).Chain' (fun a b => ¬(isPySpace a = true ∧ isPySpace b = true)) := by
  intro ws
  induction ws with
  | nil => simp [joinSp]
  | cons w ws' ih =>
    intro hws
    cases ws' with
    | nil => simpa [joinSp] using chain'_no_two_ws_of_word w (hws w (by simp)).2
    | cons w' ws'' =>
      rw [joinSp_cons_cons, List.chain'_append]
      refine ⟨chain'_no_two_ws_of_word w (hws w (by simp)).2, ?_, ?_⟩
      · rw [List.chain'_cons']
        refine ⟨?_, ih fun u hu => hws u (by simp [hu])⟩
        intro y hy hcontra
        rw [joinSp_head w' ws'' (hws w' (by simp)).1] at hy
        have hyw : y ∈ w' := List.mem_of_mem_head? hy
        exact absurd hcontra.2 (by simp [(hws w' (by simp)).2 y hyw])
      · intro x hx y _ hcontra
        have hxw : x ∈ w := List.mem_of_getLast?_eq_some (by simpa using hx)
        exact absurd hcontra.1 (by simp [(hws w (by simp)).2 x hxw])

theorem collapseRun_head? (c : Char) :
    ∀ l : List Char, (collapseRun c l).head? = l.head? := by
  intro l
  induction l with
  | nil => rfl
  | cons a t ih =>
    cases t with
    | nil => rfl
    | cons b t' =>
      simp only [collapseRun]
      by_cases h : a = c ∧ b = c
      · rw [if_pos h, ih]
        simp [h.1, h.2]
      · rw [if_neg h]
        rfl

theorem collapseRun_subset (c : Char) : ∀ l, ∀ x ∈ collapseRun c l, x ∈ l := by
  intro l
  induction l with
  | nil =>
    intro x hx
    simp [collapseRun] at hx
  | cons a t ih =>
    cases t with
    | nil =>
      intro x hx
      simpa [collapseRun] using hx
    | cons b t' =>
      intro x hx
      simp only [collapseRun] at hx
      by_cases h : a = c ∧ b = c
      · rw [if_pos h] at hx
        exact List.mem_cons_of_mem a (ih x hx)
      · rw [if_neg h] at hx
        rcases List.mem_cons.mp hx with hx | hx
        · simp [hx]
        · exact List.mem_cons_of_mem a (ih x hx)

theorem collapseRun_ne_nil (c : Char) : ∀ l : List Char, l ≠ [] → collapseRun c l ≠ [] := by
  intro l
  induction l with
  | nil =>
    intro h
    exact absurd rfl h
  | cons a t ih =>
    intro _
    cases t with
    | nil => simp [collapseRun]
    | cons b t' =>
      simp only [collapseRun]
      by_cases h : a = c ∧ b = c
      · rw [if_pos h]
        exact ih (by simp)
      · rw [if_neg h]
        simp

theorem collapseRun_getLast? (c : Char) :
    ∀ l : List Char, (collapseRun c l).getLast? = l.getLast? := by
  intro l
  induction l with
  | nil => rfl
  | cons a t ih =>
    cases t with
    | nil => rfl
    | cons b t' =>
      simp only [collapseRun]
      by_cases h : a = c ∧ b = c
      · rw [if_pos h, ih, List.getLast?_cons_cons]
      · rw [if_neg h]
        have hne := collapseRun_ne_nil c (b :: t') (by simp)
        have hsplit : a :: collapseRun c (b :: t') = [a] ++ collapseRun c (b :: t') := rfl
        rw [hsplit, List.getLast?_append_of_ne_nil _ hne, ih, List.getLast?_cons_cons]

/-- `collapseRun` only removes characters, so adjacency constraints
survive it. -/
theorem collapseRun_chain' {R : Char → Char → Prop} (c : Char) :
    ∀ l : List Char, l.Chain' R → (collapseRun c l).Chain' R := by
  intro l
  induction l with
  | nil =>
    intro h
    exact h
  | cons a t ih =>
    intro hch
    cases t with
    | nil => simpa [collapseRun] using hch
    | cons b t' =>
      rw [List.chain'_cons] at hch
      simp only [collapseRun]
      by_cases h : a = c ∧ b = c
      · rw [if_pos h]
        exact ih hch.2
      · rw [if_neg h]
        rw [List.chain'_cons']
        refine ⟨?_, ih hch.2⟩
        intro y hy
        rw [collapseRun_head?] at hy
        have hyb : b = y := by simpa using hy
        rw [← hyb]
        exact hch.1

/-- After `collapseRun c` there is no adjacent pair of `c`s left. -/
theorem collapseRun_no_run (c : Char) :
    ∀ l : List Char, (collapseRun c l).Chain' (fun a b => ¬(a = c ∧ b = c)) := by
  intro l
  induction l with
  | nil => simp [collapseRun]
  | cons a t ih =>
    cases t with
    | nil => simp [collapseRun]
    | cons b t' =>
      simp only [collapseRun]
      by_cases h : a = c ∧ b = c
      · rw [if_pos h]
        exact ih
      · rw [if_neg h]
        rw [List.chain'_cons']
        refine ⟨?_, ih⟩
        intro y hy
        rw [collapseRun_head?] at hy
        have hyb : b = y := by simpa using hy
        rw [← hyb]
        exact h

/-- A string with no adjacent `c`-pair is a fixed point of
`collapseRun c`. -/
theorem collapseRun_fix (c : Char) :
    ∀ l : List Char, l.Chain' (fun a b => ¬(a = c ∧ b = c)) → collapseRun c l = l := by
  intro l
  induction l with
  | nil =>
    intro _
    rfl
  | cons a t ih =>
    intro hch
    cases t with
    | nil => rfl
    | cons b t' =>
      rw [List.chain'_cons] at hch
      simp only [collapseRun]
      rw [if_neg hch.1, ih hch.2]

theorem dropWhile_of_head_neg {p : Char → Bool} :
    ∀ l : List Char, (∀ c ∈ l.head?, p c = false) → l.dropWhile p = l := by
  intro l h
  cases l with
  | nil => rfl
  | cons a t =>
    have ha : p a = false := h a rfl
    simp [List.dropWhile_cons, ha]

/-- `str.strip()` is the identity on a string with no leading or trailing
whitespace. -/
theorem pyStrip_fix (l : List Char)
    (h1 : ∀ c ∈ l.head?, isPySpace c = false)
    (h2 : ∀ c ∈ l.getLast?, isPySpace c = false) : pyStrip l = l := by
  unfold pyStrip
  rw [dropWhile_of_head_neg l h1]
  rw [dropWhile_of_head_neg l.reverse
    (fun c hc => h2 c (by rwa [List.head?_reverse] at hc))]
  exact List.reverse_reverse l

theorem getLast?_of_suffix {l v : List Char} (h : v <:+ l) (hv : v ≠ []) :
    v.getLast? = l.getLast? := by
  obtain ⟨u, rfl⟩ := h
  rw [List.getLast?_append_of_ne_nil _ hv]

/-- The core fixed-point: `' '.join(s.split())` is the identity on a
string whose whitespace occurs only as single interior `' '` separators. -/
theorem normalizeWs_fix :
    ∀ n (l : List Char), l.length ≤ n →
      (∀ c ∈ l, isPySpace c = true → c = ' ') →
      l.Chain' (fun a b => ¬(isPySpace a = true ∧ isPySpace b = true)) →
      (∀ c ∈ l.head?, isPySpace c = false) →
      (∀ c ∈ l.getLast?, isPySpace c = false) →
      normalizeWs l = l := by
  intro n
  induction n with
  | zero =>
    intro l hn _ _ _ _
    have : l = [] := List.eq_nil_of_length_eq_zero (by omega)
    subst this
    rfl
  | succ n ih =>
    intro l hn hws hch hhead hlast
    rcases l with _ | ⟨a, t⟩
    · rfl
    · have ha : isPySpace a = false := hhead a rfl
      have hdrop : (a :: t).dropWhile isPySpace = a :: t := by
        simp [List.dropWhile_cons, ha]
      show joinSp (pySplit (a :: t)) = a :: t
      rw [pySplit_eq_cons hdrop]
      cases hr : (a :: t).dropWhile (fun c => !isPySpace c) with
      | nil =>
        have hwr : (a :: t).takeWhile (fun c => !isPySpace c) ++
            (a :: t).dropWhile (fun c => !isPySpace c) = a :: t :=
          List.takeWhile_append_dropWhile _ _
        rw [hr, List.append_nil] at hwr
        rw [pySplit_eq_nil (by simp), hwr]
        rfl
      | cons x r'' =>
        have hsuf : x :: r'' <:+ a :: t := by
          rw [← hr]
          exact List.dropWhile_suffix _
        have hx : isPySpace x = true := by
          have hnot := List.head?_dropWhile_not (fun c => !isPySpace c) (a :: t)
          rw [hr] at hnot
          simpa using hnot
        have hxsp : x = ' ' := hws x (hsuf.subset (by simp)) hx
        have hrne : r'' ≠ [] := by
          intro hrnil
          subst hrnil
          have hlx := getLast?_of_suffix hsuf (by simp)
          have hxl : x ∈ (a :: t).getLast? := by
            rw [← hlx]
            rfl
          have := hlast x hxl
          rw [hx] at this
          exact absurd this (by simp)
        obtain ⟨y, r3, rfl⟩ : ∃ y r3, r'' = y :: r3 := by
          cases r'' with
          | nil => exact absurd rfl hrne
          | cons y r3 => exact ⟨y, r3, rfl⟩
        have hchx : (x :: y :: r3).Chain'
            (fun a b => ¬(isPySpace a = true ∧ isPySpace b = true)) := hch.suffix hsuf
        have hy : isPySpace y = false := by
          have hxy := (List.chain'_cons.mp hchx).1
          by_contra hyy
          simp only [Bool.not_eq_false] at hyy
          exact hxy ⟨hx, hyy⟩
        have hsuf2 : y :: r3 <:+ a :: t := (List.suffix_cons x (y :: r3)).trans hsuf
        have hps : pySplit (x :: y :: r3) = pySplit (y :: r3) :=
          pySplit_congr (by simp [List.dropWhile_cons, hx, hy])
        have hlen2 : (y :: r3).length ≤ n := by
          have hle := hsuf.length_le
          simp only [List.length_cons] at hle hn ⊢
          omega
        have ih2 : normalizeWs (y :: r3) = y :: r3 := by
          refine ih (y :: r3) hlen2 (fun c hc hwsc => hws c (hsuf2.subset hc) hwsc)
            (hch.suffix hsuf2) ?_ ?_
          · intro c hc
            have : c = y := by
              cases hc
              rfl
            rw [this]
            exact hy
          · intro c hc
            refine hlast c ?_
            rw [← getLast?_of_suffix hsuf2 (by simp)]
            exact hc
        have hpsne : pySplit (y :: r3) ≠ [] := by
          rw [pySplit_eq_cons
            (show (y :: r3).dropWhile isPySpace = y :: r3 by
              simp [List.dropWhile_cons, hy])]
          simp
        obtain ⟨P0, Ps, hP⟩ : ∃ P0 Ps, pySplit (y :: r3) = P0 :: Ps := by
          cases hpp : pySplit (y :: r3) with
          | nil => exact absurd hpp hpsne
          | cons P0 Ps => exact ⟨P0, Ps, rfl⟩
        rw [hps, hP, joinSp_cons_cons, ← hP]
        have ih2' : joinSp (pySplit (y :: r3)) = y :: r3 := ih2
        rw [ih2']
        have hwr : (a :: t).takeWhile (fun c => !isPySpace c) ++ (x :: y :: r3) = a :: t := by
          rw [← hr]
          exact List.takeWhile_append_dropWhile _ _
        rw [← hxsp]
        exact hwr

theorem replaceSpecial_allowed (l : List Char) :
    ∀ c ∈ replaceSpecial l, isAllowed c = true := by
  intro c hc
  obtain ⟨d, _, hd⟩ := List.mem_map.mp hc
  by_cases h : isAllowed d = true
  · rw [if_pos h] at hd
    rw [← hd]
    exact h
  · rw [if_neg h] at hd
    rw [← hd]
    decide

theorem replaceSpecial_fix (l : List Char) (h : ∀ c ∈ l, isAllowed c = true) :
    replaceSpecial l = l := by
  unfold replaceSpecial
  rw [List.map_congr_left fun c hc => if_pos (h c hc)]
  exact List.map_id l

theorem normalizeWs_mem (l : List Char) :
    ∀ c ∈ normalizeWs l, c ∈ l ∨ c = ' ' := by
  intro c hc
  rcases mem_joinSp (pySplit l) c hc with ⟨w, hw, hcw⟩ | hc'
  · exact Or.inl ((pySplit_sound l.length l le_rfl w hw).2.2 c hcw)
  · exact Or.inr hc'

theorem normalizeWs_ws_only (l : List Char) :
    ∀ c ∈ normalizeWs l, isPySpace c = true → c = ' ' := by
  intro c hc hws
  rcases mem_joinSp (pySplit l) c hc with ⟨w, hw, hcw⟩ | hc'
  · have := (pySplit_sound l.length l le_rfl w hw).2.1 c hcw
    rw [hws] at this
    exact absurd this (by simp)
  · exact hc'

theorem normalizeWs_chain (l : List Char) :
    (normalizeWs l).Chain' (fun a b => ¬(isPySpace a = true ∧ isPySpace b = true)) :=
  joinSp_chain_no_two_ws (pySplit l) fun u hu =>
    ⟨(pySplit_sound l.length l le_rfl u hu).1, (pySplit_sound l.length l le_rfl u hu).2.1⟩

theorem normalizeWs_head (l : List Char) :
    ∀ c ∈ (normalizeWs l).head?, isPySpace c = false := by
  intro c hc
  cases hp : pySplit l with
  | nil =>
    rw [show normalizeWs l = [] by rw [normalizeWs, hp]; rfl] at hc
    cases hc
  | cons w ws =>
    have hsound := pySplit_sound l.length l le_rfl w (by rw [hp]; simp)
    rw [show normalizeWs l = joinSp (w :: ws) by rw [normalizeWs, hp]] at hc
    rw [joinSp_head w ws hsound.1] at hc
    exact hsound.2.1 c (List.mem_of_mem_head? hc)

theorem normalizeWs_last (l : List Char) :
    ∀ c ∈ (normalizeWs l).getLast?, isPySpace c = false :=
  joinSp_last_not_ws (pySplit l) fun u hu =>
    ⟨(pySplit_sound l.length l le_rfl u hu).1, (pySplit_sound l.length l le_rfl u hu).2.1⟩

/-- The full `clean_text` chain always lands in the normal form. -/
theorem cleanPipeline_nf (l : List Char) : CleanNF (cleanPipeline l) := by
  have hsp : isPySpace ' ' = true := by decide
  set m := normalizeWs (replaceSpecial l) with hm
  have hall : ∀ c ∈ m, isAllowed c = true := by
    intro c hc
    rcases normalizeWs_mem _ c hc with hc' | hc'
    · exact replaceSpecial_allowed l c hc'
    · rw [hc']
      decide
  have hwso := normalizeWs_ws_only (replaceSpecial l)
  have hchain := normalizeWs_chain (replaceSpecial l)
  have hhead := normalizeWs_head (replaceSpecial l)
  have hlast := normalizeWs_last (replaceSpecial l)
  set k := collapseRun '?' (collapseRun '!' (collapseRun '.' m)) with hk
  have hsub : ∀ x ∈ k, x ∈ m := by
    intro x hx
    exact collapseRun_subset '.' _ _
      (collapseRun_subset '!' _ _ (collapseRun_subset '?' _ _ hx))
  have khead : k.head? = m.head? := by
    rw [hk, collapseRun_head?, collapseRun_head?, collapseRun_head?]
  have klast : k.getLast? = m.getLast? := by
    rw [hk, collapseRun_getLast?, collapseRun_getLast?, collapseRun_getLast?]
  have kchain : k.Chain' (fun a b => ¬(isPySpace a = true ∧ isPySpace b = true)) :=
    collapseRun_chain' _ _ (collapseRun_chain' _ _ (collapseRun_chain' _ _ hchain))
  have khne : ∀ c ∈ k.head?, isPySpace c = false := by
    intro c hc
    rw [khead] at hc
    exact hhead c hc
  have klne : ∀ c ∈ k.getLast?, isPySpace c = false := by
    intro c hc
    rw [klast] at hc
    exact hlast c hc
  have hstrip : pyStrip k = k := pyStrip_fix k khne klne
  show CleanNF (pyStrip k)
  rw [hstrip]
  refine ⟨fun c hc => hall c (hsub c hc), fun c hc => hwso c (hsub c hc), kchain,
    khne, klne, ?_, ?_, ?_⟩
  · exact collapseRun_chain' _ _ (collapseRun_chain' _ _ (collapseRun_no_run '.' _))
  · exact collapseRun_chain' _ _ (collapseRun_no_run '!' _)
  · exact collapseRun_no_run '?' _

/-- The full `clean_text` chain is the identity on its normal form. -/
theorem cleanPipeline_fix (l : List Char) (h : CleanNF l) : cleanPipeline l = l := by
  obtain ⟨hall, hwso, hchain, hhead, hlast, hdot, hbang, hquest⟩ := h
  unfold cleanPipeline
  rw [replaceSpecial_fix l hall]
  rw [normalizeWs_fix l.length l le_rfl hwso hchain hhead hlast]
  rw [collapseRun_fix '.' l hdot, collapseRun_fix '!' l hbang, collapseRun_fix '?' l hquest]
  exact pyStrip_fix l hhead hlast

/-- **C10**.  `clean_text` is idempotent: a second normalization pass
changes nothing; its result never has leading or trailing whitespace
(stripping it again is the identity); and cleaning the empty (falsy)
input yields the empty string. -/
theorem clean_text_idempotent :
    (∀ t, clean_text (clean_text t) = clean_text t) ∧
    (∀ t, pyStripStr (clean_text t) = clean_text t) ∧
    clean_text "" = "" := by
  have key : ∀ t, clean_text (clean_text t) = clean_text t := by
    intro t
    by_cases ht : t = ""
    · rw [ht]
      rfl
    · rw [show clean_text t = String.mk (cleanPipeline t.data) from if_neg ht]
      by_cases hy : String.mk (cleanPipeline t.data) = ""
      · rw [hy]
        rfl
      · rw [show clean_text (String.mk (cleanPipeline t.data))
            = String.mk (cleanPipeline (String.mk (cleanPipeline t.data)).data) from if_neg hy]
        rw [show (String.mk (cleanPipeline t.data)).data = cleanPipeline t.data from rfl]
        rw [cleanPipeline_fix _ (cleanPipeline_nf t.data)]
  refine ⟨key, ?_, rfl⟩
  intro t
  by_cases ht : t = ""
  · rw [ht]
    rfl
  · rw [show clean_text t = String.mk (cleanPipeline t.data) from if_neg ht]
    show String.mk (pyStrip (String.mk (cleanPipeline t.data)).data) = _
    rw [show (String.mk (cleanPipeline t.data)).data = cleanPipeline t.data from rfl]
    have hnf := cleanPipeline_nf t.data
    rw [pyStrip_fix _ hnf.2.2.2.1 hnf.2.2.2.2.1]
